import Mathlib

/-!
Verification of the background-job queue engine of the rust-template repository.

The engine lives in `src/queue/queue_service.rs` (the `QueueService` /
`QueueManager` pair actually wired into the application) and
`src/queue/job.rs` (a second, standalone job-record type).  This file gives a
shallow embedding of both, with the queue's Redis effects modelled as explicit
state passing over a `Store` value:

* a Redis list is a `List (Entry T)`; an entry is the serialized form of a
  job.  Since `serde_json::to_string` is injective on `QueueJob` values
  (deterministic field order, one value per struct), string equality of
  serialized entries coincides with structural equality of the jobs, so an
  entry is modelled as the job value itself (`Entry.job`) or as a string that
  does not deserialize (`Entry.malformed`).
* `RPUSH` appends at the end of the list, `LPUSH` conses at the front,
  `BRPOPLPUSH waiting processing` removes the last element of `waiting` and
  conses it onto `processing` (Redis pops the tail of the source and pushes
  the head of the destination), `LREM key 1 v` removes the first occurrence
  equal to `v`.
* machine integers (`u32` attempts / `u64` delays) are `Nat`; the one place
  where wrap-around is semantically relevant — the `attempts += 1` increment
  feeding the `attempts - 1` subtraction of the backoff expression — is
  modelled explicitly: the increment is taken mod `2^32` and the unsigned
  subtraction is a checked predecessor that fails (models the u32 underflow)
  on zero.
* every fallible or timed-out remote call is driven by an explicit outcome
  parameter (`PingOutcome`, `OpResult`, `HandlerOutcome`), so the functions
  stay pure and executable while covering all control paths of the source.
-/

namespace RustQueue

/-- Error type of the application (`src/interceptors/error.rs`); only the
variants produced by the queue engine are modelled. -/
inductive AppError where
  | redisError (msg : String)
  | queueError (msg : String)
  | validationError (msg : String)
  deriving DecidableEq, Repr

/-- Modulus of the `u32` arithmetic on the `attempts` counter. -/
def U32 : Nat := 2 ^ 32

/-- Job status enum from `src/queue/job.rs` lines 8-14. -/
inductive JobStatus where
  | pending
  | processing
  | completed
  | failed
  | retrying
  deriving DecidableEq, Repr

/-- Job record from `src/queue/job.rs` lines 16-28.  Timestamps are abstract
integers supplied by the caller (the source reads `Utc::now()`). -/
structure Job (T : Type) where
  id : String
  data : T
  status : JobStatus
  retries : Nat
  max_retries : Nat
  timeout : Nat
  backoff_delay : Nat
  created_at : Int
  updated_at : Int
  error : Option String
  deriving DecidableEq, Repr

/-- `Job::new` (`job.rs` lines 34-48); the generated UUID and the current time
are passed in explicitly. -/
def Job.new (id : String) (data : T) (max_retries : Nat) (now : Int) : Job T :=
  { id := id
    data := data
    status := JobStatus.pending
    retries := 0
    max_retries := max_retries
    timeout := 60000
    backoff_delay := 2000
    created_at := now
    updated_at := now
    error := none }

/-- `Job::can_retry` (`job.rs` line 65): `self.retries < self.max_retries`. -/
def Job.can_retry (j : Job T) : Bool :=
  j.retries < j.max_retries

/-- `Job::increment_retry` (`job.rs` lines 69-73). -/
def Job.increment_retry (j : Job T) (now : Int) : Job T :=
  { j with retries := j.retries + 1, status := JobStatus.retrying, updated_at := now }

/-- `Job::mark_processing` (`job.rs` lines 75-78). -/
def Job.mark_processing (j : Job T) (now : Int) : Job T :=
  { j with status := JobStatus.processing, updated_at := now }

/-- `Job::mark_completed` (`job.rs` lines 80-83). -/
def Job.mark_completed (j : Job T) (now : Int) : Job T :=
  { j with status := JobStatus.completed, updated_at := now }

/-- `Job::mark_failed` (`job.rs` lines 85-89). -/
def Job.mark_failed (j : Job T) (e : String) (now : Int) : Job T :=
  { j with status := JobStatus.failed, error := some e, updated_at := now }

/-- `Job::calculate_backoff` (`job.rs` lines 92-94):
`self.backoff_delay * 2_u64.pow(self.retries)`. -/
def Job.calculate_backoff (j : Job T) : Nat :=
  j.backoff_delay * 2 ^ j.retries

/-- Job structure of the wired-in queue engine (`queue_service.rs` lines
16-27). -/
structure QueueJob (T : Type) where
  id : String
  data : T
  attempts : Nat
  max_retries : Nat
  timeout_ms : Nat
  backoff_ms : Nat
  created_at : Int
  deriving DecidableEq, Repr

/-- `QueueJob::new` (`queue_service.rs` lines 33-43); the UUID and timestamp
are explicit parameters. -/
def QueueJob.new (id : String) (data : T) (max_retries : Nat) (timeout_ms : Nat)
    (now : Int) : QueueJob T :=
  { id := id
    data := data
    attempts := 0
    max_retries := max_retries
    timeout_ms := timeout_ms
    backoff_ms := 2000
    created_at := now }

/-- Queue configuration (`queue_service.rs` lines 48-53). -/
structure QueueConfig where
  redis_url : String
  environment : String
  remove_on_success : Bool
  remove_on_failure : Bool
  deriving DecidableEq, Repr

/-- `QueueConfig::new` (`queue_service.rs` lines 56-63): archival flags
default to `remove_on_success = true`, `remove_on_failure = false`. -/
def QueueConfig.new (redis_url environment : String) : QueueConfig :=
  { redis_url := redis_url
    environment := environment
    remove_on_success := true
    remove_on_failure := false }

/-- `QueueManager::create_queue` queue-name derivation (`queue_service.rs`
line 110): `format` of environment, name and the literal `queue`, joined by
underscores. -/
def create_queue_name (environment name : String) : String :=
  environment ++ "_" ++ name ++ "_queue"

/-- An element of a Redis list: the serialized form of a job, or a string
that does not deserialize into a `QueueJob`. -/
inductive Entry (T : Type) where
  | job (j : QueueJob T)
  | malformed (s : String)
  deriving DecidableEq, Repr

/-- Storage key of a job record (`queue_service.rs` line 200):
queue name, the literal `:job:`, then the id. -/
def jobKey (queue_name id : String) : String :=
  queue_name ++ ":job:" ++ id

/-- The Redis state touched by one queue: the four lists and the keyed job
records (key, record, TTL in seconds). -/
structure Store (T : Type) where
  waiting : List (Entry T)
  processing : List (Entry T)
  succeeded : List (Entry T)
  failed : List (Entry T)
  records : List (String × QueueJob T × Nat)
  deriving DecidableEq, Repr

/-- `LREM key 1 v`: remove the first occurrence of `v`. -/
def lremOne [DecidableEq α] : List α → α → List α
  | [], _ => []
  | x :: xs, v => if x = v then xs else x :: lremOne xs v

/-- `SET key v EX ttl`: overwrite the record stored under `k`. -/
def setRecord [DecidableEq T] (rs : List (String × QueueJob T × Nat)) (k : String)
    (j : QueueJob T) (ttl : Nat) : List (String × QueueJob T × Nat) :=
  (k, j, ttl) :: rs.filter (fun r => r.1 ≠ k)

/-- `DEL key`. -/
def delRecord [DecidableEq T] (rs : List (String × QueueJob T × Nat)) (k : String) :
    List (String × QueueJob T × Nat) :=
  rs.filter (fun r => r.1 ≠ k)

/-- Outcome of the probe issued by the health check: the `GET` succeeded, the
connection or the `GET` returned an error, or the whole probe exceeded its
2-second deadline. -/
inductive PingOutcome where
  | ok
  | err
  | timedOut
  deriving DecidableEq, Repr

/-- `QueueManager::health_check` (`queue_service.rs` lines 130-139): the probe
runs under `timeout(Duration::from_secs(2))`; `Ok(Ok(_))` maps to
`Ok(true)` and both `Ok(Err(_))` and `Err(_)` map to `Ok(false)` — no error
value ever escapes. -/
def health_check (o : PingOutcome) : Except AppError Bool :=
  match o with
  | PingOutcome.ok => Except.ok true
  | PingOutcome.err => Except.ok false
  | PingOutcome.timedOut => Except.ok false

/-- Outcome of one remote store operation inside a deadline-wrapped block:
it succeeded, it returned an error, or it hung until the surrounding
`timeout` fired (in which case it performed no write). -/
inductive OpResult where
  | ok
  | err (e : AppError)
  | hang
  deriving DecidableEq, Repr

/-- The environment `add_to_queue` runs against: the health probe outcome,
whether `serde_json::to_string` of the job succeeds, and the outcome of the
two store writes (`SET ... EX` then `RPUSH`). -/
structure StoreBehavior where
  ping : PingOutcome
  serialize_ok : Bool
  set_ex : OpResult
  rpush : OpResult
  deriving DecidableEq, Repr

/-- `QueueService::add_to_queue` (`queue_service.rs` lines 181-218).  Steps of
the source, in order: fail fast with a Redis error when the health check
reports unhealthy (before any store write); build
`QueueJob::new(data, max_retries, 60000)`; fail with a queue error when
serialization fails; under a 5-second deadline `SET` the record at
`jobKey` with TTL 86400 seconds, then `RPUSH` it onto the waiting list; map
a fired deadline to a Redis timeout error; on success return the id. -/
def add_to_queue [DecidableEq T] (queue_name : String) (max_retries : Nat)
    (new_id : String) (now : Int) (data : T) (b : StoreBehavior) (st : Store T) :
    Except AppError String × Store T :=
  match health_check b.ping with
  | Except.error e => (Except.error e, st)
  | Except.ok healthy =>
    if !healthy then
      (Except.error (AppError.redisError
        "Redis is not available. Job cannot be added to queue."), st)
    else
      let job := QueueJob.new new_id data max_retries 60000 now
      if !b.serialize_ok then
        (Except.error (AppError.queueError "Failed to serialize job"), st)
      else
        match b.set_ex with
        | OpResult.err e => (Except.error e, st)
        | OpResult.hang =>
          (Except.error (AppError.redisError "Timeout adding job to queue"), st)
        | OpResult.ok =>
          let st1 := { st with
            records := setRecord st.records (jobKey queue_name new_id) job 86400 }
          match b.rpush with
          | OpResult.err e => (Except.error e, st1)
          | OpResult.hang =>
            (Except.error (AppError.redisError "Timeout adding job to queue"), st1)
          | OpResult.ok =>
            (Except.ok new_id, { st1 with waiting := st1.waiting ++ [Entry.job job] })

/-- The `2_u64.pow(job.attempts - 1)` exponent of `handle_failure`
(`queue_service.rs` line 369): the operand is unsigned, so the subtraction is
a checked predecessor that fails on `attempts = 0`. -/
def checkedPred : Nat → Option Nat
  | 0 => none
  | n + 1 => some n

/-- The backoff delay expression of `handle_failure` (`queue_service.rs` line
369): `job.backoff_ms * 2_u64.pow(job.attempts - 1)`; `none` models the u32
underflow of `attempts - 1`. -/
def backoffExpr (j : QueueJob T) : Option Nat :=
  (checkedPred j.attempts).map (fun e => j.backoff_ms * 2 ^ e)

/-- `QueueService::handle_failure` (`queue_service.rs` lines 348-398), on the
path where the store calls succeed.  The job argument carries the attempts
counter already incremented by the worker loop.  Steps of the source:
serialize the (incremented) job and `LREM` that serialization from the
processing list; if `attempts < max_retries`, sleep the backoff delay and
`LPUSH` the job back onto the waiting list; otherwise delete the record key
when `remove_on_failure` is set, else `LPUSH` onto the failed list.  The
returned `Option Nat` is the slept delay (`none` on the terminal branch);
the outer `none` models the underflow of the backoff expression. -/
def handle_failure [DecidableEq T] (cfg : QueueConfig) (queue_name : String)
    (job : QueueJob T) (st : Store T) : Option (Store T × Option Nat) :=
  let st1 := { st with processing := lremOne st.processing (Entry.job job) }
  if job.attempts < job.max_retries then
    match backoffExpr job with
    | none => none
    | some d => some ({ st1 with waiting := Entry.job job :: st1.waiting }, some d)
  else
    if cfg.remove_on_failure then
      some ({ st1 with records := delRecord st1.records (jobKey queue_name job.id) }, none)
    else
      some ({ st1 with failed := Entry.job job :: st1.failed }, none)

/-- `QueueService::handle_success` (`queue_service.rs` lines 311-346), on the
path where the store calls succeed: `LREM` the serialization of the
(incremented) job from the processing list, then delete the record key when
`remove_on_success` is set, else `LPUSH` onto the succeeded list. -/
def handle_success [DecidableEq T] (cfg : QueueConfig) (queue_name : String)
    (job : QueueJob T) (st : Store T) : Store T :=
  let st1 := { st with processing := lremOne st.processing (Entry.job job) }
  if cfg.remove_on_success then
    { st1 with records := delRecord st1.records (jobKey queue_name job.id) }
  else
    { st1 with succeeded := Entry.job job :: st1.succeeded }

/-- Outcome of one handler invocation under its `timeout_ms` deadline. -/
inductive HandlerOutcome where
  | success
  | failure
  | timedOut
  deriving DecidableEq, Repr

/-- What one worker-loop iteration did, for stating properties of traces. -/
inductive StepAction (T : Type) where
  | idle
  | skipped_malformed (s : String)
  | completed (j : QueueJob T)
  | retried (j : QueueJob T) (delay : Nat)
  | failed_terminal (j : QueueJob T)
  deriving DecidableEq, Repr

/-- One iteration of the worker loop of `QueueService::handle_process_queue`
(`queue_service.rs` lines 236-305), on the path where health check and store
calls succeed.  Steps of the source: `BRPOPLPUSH waiting processing` (pop the
tail of waiting, cons onto processing); when nothing is available, sleep and
loop (`idle`); when the entry does not deserialize, `continue` with the entry
left in processing (`skipped_malformed`); otherwise increment `attempts`
(u32 arithmetic), run the handler under the job deadline, and dispatch to
`handle_success` on success or `handle_failure` on error or handler timeout.
`none` models the u32 underflow panic inside `handle_failure`. -/
def workerStep [DecidableEq T] (cfg : QueueConfig) (queue_name : String)
    (outcome : QueueJob T → HandlerOutcome) (st : Store T) :
    Option (Store T × StepAction T) :=
  match st.waiting.getLast? with
  | none => some (st, StepAction.idle)
  | some e =>
    let st1 := { st with
      waiting := st.waiting.dropLast
      processing := e :: st.processing }
    match e with
    | Entry.malformed s => some (st1, StepAction.skipped_malformed s)
    | Entry.job j0 =>
      let j := { j0 with attempts := (j0.attempts + 1) % U32 }
      match outcome j with
      | HandlerOutcome.success =>
        some (handle_success cfg queue_name j st1, StepAction.completed j)
      | HandlerOutcome.failure =>
        match handle_failure cfg queue_name j st1 with
        | none => none
        | some (st2, some d) => some (st2, StepAction.retried j d)
        | some (st2, none) => some (st2, StepAction.failed_terminal j)
      | HandlerOutcome.timedOut =>
        match handle_failure cfg queue_name j st1 with
        | none => none
        | some (st2, some d) => some (st2, StepAction.retried j d)
        | some (st2, none) => some (st2, StepAction.failed_terminal j)

/-- Iterate `workerStep` a given number of times, collecting the actions. -/
def runWorker [DecidableEq T] (cfg : QueueConfig) (queue_name : String)
    (outcome : QueueJob T → HandlerOutcome) :
    Nat → Store T → Option (Store T × List (StepAction T))
  | 0, st => some (st, [])
  | fuel + 1, st =>
    match workerStep cfg queue_name outcome st with
    | none => none
    | some (st1, act) =>
      match runWorker cfg queue_name outcome fuel st1 with
      | none => none
      | some (st2, acts) => some (st2, act :: acts)

/-- `QueueService::handle_process_queue` as seen by its caller
(`queue_service.rs` lines 221-309): before returning `Ok(())` its only effect
is one `tokio::spawn` of a fresh worker loop.  No flag, registry or other
state is consulted, so modelled over the number of worker loops already
running for the queue, each call adds exactly one more and reports success. -/
def handle_process_queue (workers : Nat) : Nat × Except AppError Unit :=
  (workers + 1, Except.ok ())

/-- Status/result document read back by a result poll. -/
structure StoredResult (T : Type) where
  status : JobStatus
  result : Option T
  error : Option String
  deriving DecidableEq, Repr

/-- A status is terminal when it is Completed or Failed. -/
def isTerminal : JobStatus → Bool
  | JobStatus.completed => true
  | JobStatus.failed => true
  | _ => false

/-- Errors of the result-polling API named by the spec. -/
inductive PollError where
  | notFound
  | timedOut
  deriving DecidableEq, Repr

/-- Modelled from the spec: the polling loop of `get_job_result`, which is
absent from the source (no function of the repository reads a job record back
by id).  Spec section 4.5: poll the record key every 500 ms; a missing key is
`NotFound`; a terminal status is returned; fuel exhaustion is the elapsed
deadline.  `reads k` is the store read at the k-th poll. -/
def get_job_result_loop (reads : Nat → Option (StoredResult T)) :
    Nat → Nat → Except PollError (StoredResult T)
  | _, 0 => Except.error PollError.timedOut
  | k, fuel + 1 =>
    match reads k with
    | none => Except.error PollError.notFound
    | some r =>
      if isTerminal r.status then Except.ok r
      else get_job_result_loop reads (k + 1) fuel

/-- Modelled from the spec: `get_job_result(id, timeoutSecs)` is absent from
the source; per spec section 4.5 it polls every 500 ms until the status is
terminal or the deadline elapses, so a timeout of `timeout_secs` seconds
allows `timeout_secs * 2` polls. -/
def get_job_result (reads : Nat → Option (StoredResult T)) (timeout_secs : Nat) :
    Except PollError (StoredResult T) :=
  get_job_result_loop reads 0 (timeout_secs * 2)

/-! ## General lemmas about the embedded primitives -/

theorem mem_of_getLast?_eq {α : Type} {l : List α} {a : α} (h : l.getLast? = some a) :
    a ∈ l := by
  obtain ⟨hne, heq⟩ := List.mem_getLast?_eq_getLast (Option.mem_def.2 h)
  exact heq ▸ List.getLast_mem hne

theorem mem_lremOne_of_ne [DecidableEq α] {a v : α} {l : List α} (h : a ∈ l)
    (hne : a ≠ v) : a ∈ lremOne l v := by
  induction l with
  | nil => exact absurd h (List.not_mem_nil a)
  | cons x xs ih =>
    rcases List.mem_cons.1 h with h1 | h1
    · subst h1
      rw [lremOne, if_neg hne]
      exact List.mem_cons_self a _
    · by_cases hx : x = v
      · rw [lremOne, if_pos hx]
        exact h1
      · rw [lremOne, if_neg hx]
        exact List.mem_cons_of_mem x (ih h1)

theorem handle_success_processing [DecidableEq T] (cfg : QueueConfig) (qn : String)
    (j : QueueJob T) (st : Store T) :
    (handle_success cfg qn j st).processing = lremOne st.processing (Entry.job j) := by
  unfold handle_success
  by_cases h : cfg.remove_on_success <;> simp [h]

theorem handle_failure_processing [DecidableEq T] (cfg : QueueConfig) (qn : String)
    (j : QueueJob T) (st st2 : Store T) (d : Option Nat)
    (h : handle_failure cfg qn j st = some (st2, d)) :
    st2.processing = lremOne st.processing (Entry.job j) := by
  unfold handle_failure at h
  split at h
  · split at h
    · exact absurd h (by simp)
    · simp only [Option.some.injEq, Prod.mk.injEq] at h
      obtain ⟨h1, -⟩ := h
      subst h1
      rfl
  · split at h <;>
    · simp only [Option.some.injEq, Prod.mk.injEq] at h
      obtain ⟨h1, -⟩ := h
      subst h1
      rfl

theorem handle_failure_isSome [DecidableEq T] (cfg : QueueConfig) (qn : String)
    (j : QueueJob T) (st : Store T) (h : 1 ≤ j.attempts) :
    (handle_failure cfg qn j st).isSome = true := by
  unfold handle_failure
  split
  · cases ha : j.attempts with
    | zero => omega
    | succ n => simp [backoffExpr, checkedPred, ha]
  · split <;> rfl

/-! ## The claims -/

/-- Claim C1 (the code contradicts it): run the worker to exhaustion on a job
with `max_retries = 2` whose handler fails on every attempt, with the default
configuration (`remove_on_failure = false`).  The final attempts count is
`2 = max_retries`, the job was pushed to the failed list and the waiting list
is empty — but the processing list is NOT empty: `handle_failure` LREMs the
serialization of the job with the already-incremented attempts counter, which
never matches the entry BRPOPLPUSH moved into processing, so one stale entry
per attempt (here: attempts 0 and 1) stays in the processing list forever,
while the claim demands the job be absent from the processing list. -/
theorem exhausted_job_left_in_processing :
    (runWorker (QueueConfig.new "url" "test") "q" (fun _ => HandlerOutcome.failure) 3
        (⟨[Entry.job ⟨"a", (0 : Nat), 0, 2, 60000, 2000, 0⟩], [], [], [],
          [(jobKey "q" "a", ⟨"a", 0, 0, 2, 60000, 2000, 0⟩, 86400)]⟩ : Store Nat)).map
      (fun p => (p.1.waiting, p.1.failed, p.1.processing)) =
      some ([],
        [Entry.job ⟨"a", 0, 2, 2, 60000, 2000, 0⟩],
        [Entry.job ⟨"a", 0, 1, 2, 60000, 2000, 0⟩,
         Entry.job ⟨"a", 0, 0, 2, 60000, 2000, 0⟩]) ∧
    ([Entry.job ⟨"a", 0, 1, 2, 60000, 2000, 0⟩,
      Entry.job ⟨"a", 0, 0, 2, 60000, 2000, 0⟩] : List (Entry Nat)) ≠ [] :=
  ⟨by rfl, by simp⟩

/-- Claim C2 (the code contradicts it): enqueue job A and then job B on an
empty queue through `add_to_queue` (which RPUSHes) and run one worker
iteration with an always-succeeding handler.  The worker BRPOPLPUSHes the
tail of the waiting list, so it hands B — the job enqueued LAST — to the
handler first, while A is still waiting: the service order is LIFO, not the
claimed FIFO. -/
theorem first_dequeued_job_is_last_enqueued :
    ((workerStep (QueueConfig.new "url" "test") "q" (fun _ => HandlerOutcome.success)
        (add_to_queue "q" 3 "B" 0 (0 : Nat) ⟨PingOutcome.ok, true, OpResult.ok, OpResult.ok⟩
          (add_to_queue "q" 3 "A" 0 (0 : Nat) ⟨PingOutcome.ok, true, OpResult.ok, OpResult.ok⟩
            (⟨[], [], [], [], []⟩ : Store Nat)).2).2).map
      (fun p => (p.2, p.1.waiting)) =
      some (StepAction.completed ⟨"B", 0, 1, 3, 60000, 2000, 0⟩,
            [Entry.job ⟨"A", 0, 0, 3, 60000, 2000, 0⟩])) ∧
    ("B" : String) ≠ "A" :=
  ⟨by rfl, by decide⟩

/-- Claim C4 (the claim as stated is false): calling `handle_process_queue` a
second time is neither rejected nor a no-op — starting from zero worker loops,
two calls leave two concurrent worker loops running and the second call still
reports success. -/
theorem second_start_spawns_second_worker :
    handle_process_queue (handle_process_queue 0).1 = (2, Except.ok ()) ∧ (2 : Nat) ≠ 1 :=
  ⟨rfl, by decide⟩

/-- Claim C4, amended: `handle_process_queue` consults no state and performs
no idempotence check; every call unconditionally spawns one additional
concurrent worker loop for the queue and returns success. -/
theorem handle_process_queue_always_spawns (w : Nat) :
    handle_process_queue w = (w + 1, Except.ok ()) := rfl

/-- Claim C7: `can_retry` is true exactly when `retries < max_retries`;
`increment_retry` adds exactly 1 to the retries counter and sets the status
to Retrying; and none of the four transition operations decreases the
retries counter (the three mark operations leave it unchanged). -/
theorem job_transition_invariants {T : Type} (j : Job T) (now : Int) (e : String) :
    (Job.can_retry j = true ↔ j.retries < j.max_retries) ∧
    (Job.increment_retry j now).retries = j.retries + 1 ∧
    (Job.increment_retry j now).status = JobStatus.retrying ∧
    j.retries ≤ (Job.increment_retry j now).retries ∧
    (Job.mark_processing j now).retries = j.retries ∧
    (Job.mark_completed j now).retries = j.retries ∧
    (Job.mark_failed j e now).retries = j.retries := by
  refine ⟨?_, rfl, rfl, Nat.le_succ _, rfl, rfl, rfl⟩
  simp [Job.can_retry]

/-- Claim C8: `health_check` is total over the store outcomes — for every
outcome of the probe (success, error, or exceeding the 2-second deadline) it
returns `Ok` of a boolean which is true exactly on success; no store error is
ever propagated to the caller. -/
theorem health_check_total (o : PingOutcome) :
    ∃ b : Bool, health_check o = Except.ok b ∧ (b = true ↔ o = PingOutcome.ok) := by
  cases o
  · exact ⟨true, rfl, by simp⟩
  · exact ⟨false, rfl, by simp⟩
  · exact ⟨false, rfl, by simp⟩

theorem one_lt_U32 : 1 < U32 := by norm_num [U32]

theorem handle_failure_retry [DecidableEq T] (cfg : QueueConfig) (qn : String)
    (j : QueueJob T) (st : Store T) (n : Nat)
    (ha : j.attempts = n + 1) (hr : j.attempts < j.max_retries) :
    handle_failure cfg qn j st =
      some ({ st with processing := lremOne st.processing (Entry.job j),
                      waiting := Entry.job j :: st.waiting },
            some (j.backoff_ms * 2 ^ n)) := by
  unfold handle_failure
  rw [if_pos hr]
  simp [backoffExpr, ha, checkedPred]

/-- Claim C3: attempts are indexed as in the data model — `attempts` counts
the dequeue attempts made so far and starts at 0, so the job that fails its
attempt number `n` is the one dequeued while carrying `attempts = n`.  When
that attempt fails and retries remain, the delay the worker sleeps before
LPUSHing the job back onto the waiting list is exactly
`backoff_ms * 2 ^ n` (the source computes `backoff_ms * 2 ^ (attempts - 1)`
on the post-increment counter), and the delay is strictly increasing in `n`
with no cap. -/
theorem backoff_delay_formula {T : Type} [DecidableEq T] (cfg : QueueConfig) (qn : String)
    (outcome : QueueJob T → HandlerOutcome) (st : Store T) (rest : List (Entry T))
    (j : QueueJob T) (n : Nat)
    (hw : st.waiting = rest ++ [Entry.job j])
    (ha : j.attempts = n)
    (hU : n + 1 < U32)
    (hr : n + 1 < j.max_retries)
    (hf : outcome { j with attempts := n + 1 } = HandlerOutcome.failure)
    (hb : 0 < j.backoff_ms) :
    (workerStep cfg qn outcome st).map (fun p => p.2) =
      some (StepAction.retried { j with attempts := n + 1 } (j.backoff_ms * 2 ^ n)) ∧
    j.backoff_ms * 2 ^ n < j.backoff_ms * 2 ^ (n + 1) := by
  constructor
  · have hmod : (j.attempts + 1) % U32 = n + 1 := by
      rw [ha]
      exact Nat.mod_eq_of_lt hU
    unfold workerStep
    rw [hw, List.getLast?_concat, List.dropLast_concat]
    simp only [hmod, hf,
      handle_failure_retry cfg qn { j with attempts := n + 1 } _ n rfl hr]
    rfl
  · exact Nat.mul_lt_mul_of_pos_left
      (Nat.pow_lt_pow_right (by omega) (Nat.lt_succ_self n)) hb

/-- Witness for claim C3 at a concrete input: a fresh job (attempts so far
`n = 0`, `max_retries = 2`, base 2000 ms) whose handler fails is retried
after exactly `2000 * 2 ^ 0` ms, and that delay is below the next one. -/
theorem backoff_delay_formula_witness :
    ((workerStep (QueueConfig.new "url" "test") "q" (fun _ => HandlerOutcome.failure)
        (⟨[Entry.job ⟨"a", (0 : Nat), 0, 2, 60000, 2000, 0⟩], [], [], [], []⟩ : Store Nat)).map
      (fun p => p.2) =
      some (StepAction.retried
        { (⟨"a", (0 : Nat), 0, 2, 60000, 2000, 0⟩ : QueueJob Nat) with attempts := 0 + 1 }
        ((⟨"a", (0 : Nat), 0, 2, 60000, 2000, 0⟩ : QueueJob Nat).backoff_ms * 2 ^ 0))) ∧
    (⟨"a", (0 : Nat), 0, 2, 60000, 2000, 0⟩ : QueueJob Nat).backoff_ms * 2 ^ 0 <
      (⟨"a", (0 : Nat), 0, 2, 60000, 2000, 0⟩ : QueueJob Nat).backoff_ms * 2 ^ (0 + 1) :=
  backoff_delay_formula (QueueConfig.new "url" "test") "q" (fun _ => HandlerOutcome.failure)
    (⟨[Entry.job ⟨"a", (0 : Nat), 0, 2, 60000, 2000, 0⟩], [], [], [], []⟩ : Store Nat) []
    ⟨"a", (0 : Nat), 0, 2, 60000, 2000, 0⟩ 0 rfl rfl (by norm_num [U32]) (by decide) rfl
    (by decide)

/-- Claim C9: when the entry moved from waiting to processing does not
deserialize, the worker loop records nothing and continues — the step leaves
the malformed entry at the head of the processing list, the other lists and
the record map are untouched, no failure record is written, and the step does
not crash; moreover no later iteration ever removes a malformed entry from
the processing list (removal only LREMs serialized job values). -/
theorem malformed_entry_skipped {T : Type} [DecidableEq T] (cfg : QueueConfig)
    (qn : String) (outcome : QueueJob T → HandlerOutcome) (st : Store T)
    (rest : List (Entry T)) (s : String)
    (hw : st.waiting = rest ++ [Entry.malformed s]) :
    workerStep cfg qn outcome st =
      some ({ st with waiting := rest, processing := Entry.malformed s :: st.processing },
            StepAction.skipped_malformed s) ∧
    (∀ (st' st1 : Store T) (act : StepAction T) (s1 : String),
      Entry.malformed s1 ∈ st'.processing →
      workerStep cfg qn outcome st' = some (st1, act) →
      Entry.malformed s1 ∈ st1.processing) := by
  constructor
  · unfold workerStep
    rw [hw, List.getLast?_concat, List.dropLast_concat]
  · intro st' st1 act s1 hmem hstep
    unfold workerStep at hstep
    split at hstep
    · simp only [Option.some.injEq, Prod.mk.injEq] at hstep
      obtain ⟨h1, -⟩ := hstep
      exact h1 ▸ hmem
    · rename_i e heq
      split at hstep
      · simp only [Option.some.injEq, Prod.mk.injEq] at hstep
        obtain ⟨h1, -⟩ := hstep
        subst h1
        exact List.mem_cons_of_mem _ hmem
      · rename_i j0
        dsimp only at hstep
        split at hstep
        · simp only [Option.some.injEq, Prod.mk.injEq] at hstep
          obtain ⟨h1, -⟩ := hstep
          subst h1
          rw [handle_success_processing]
          exact mem_lremOne_of_ne (List.mem_cons_of_mem _ hmem) (by simp)
        · split at hstep
          · exact absurd hstep (by simp)
          · rename_i st2 d hfe
            simp only [Option.some.injEq, Prod.mk.injEq] at hstep
            obtain ⟨h1, -⟩ := hstep
            subst h1
            rw [handle_failure_processing _ _ _ _ _ _ hfe]
            exact mem_lremOne_of_ne (List.mem_cons_of_mem _ hmem) (by simp)
          · rename_i st2 hfe
            simp only [Option.some.injEq, Prod.mk.injEq] at hstep
            obtain ⟨h1, -⟩ := hstep
            subst h1
            rw [handle_failure_processing _ _ _ _ _ _ hfe]
            exact mem_lremOne_of_ne (List.mem_cons_of_mem _ hmem) (by simp)
        · split at hstep
          · exact absurd hstep (by simp)
          · rename_i st2 d hfe
            simp only [Option.some.injEq, Prod.mk.injEq] at hstep
            obtain ⟨h1, -⟩ := hstep
            subst h1
            rw [handle_failure_processing _ _ _ _ _ _ hfe]
            exact mem_lremOne_of_ne (List.mem_cons_of_mem _ hmem) (by simp)
          · rename_i st2 hfe
            simp only [Option.some.injEq, Prod.mk.injEq] at hstep
            obtain ⟨h1, -⟩ := hstep
            subst h1
            rw [handle_failure_processing _ _ _ _ _ _ hfe]
            exact mem_lremOne_of_ne (List.mem_cons_of_mem _ hmem) (by simp)

/-- Witness for claim C9 at a concrete input: a queue whose only waiting
entry is an undeserializable string is skipped in one step, the entry ending
up in the processing list with everything else unchanged. -/
theorem malformed_entry_skipped_witness :
    workerStep (QueueConfig.new "url" "test") "q" (fun _ => HandlerOutcome.success)
      (⟨[Entry.malformed "oops"], [], [], [], []⟩ : Store Nat) =
      some ({ (⟨[Entry.malformed "oops"], [], [], [], []⟩ : Store Nat) with
                waiting := [], processing := Entry.malformed "oops" :: []},
            StepAction.skipped_malformed "oops") :=
  (malformed_entry_skipped (QueueConfig.new "url" "test") "q" (fun _ => HandlerOutcome.success)
    (⟨[Entry.malformed "oops"], [], [], [], []⟩ : Store Nat) [] "oops" rfl).1

/-- Jobs whose serialized form can legitimately sit in the waiting list:
the `max_retries` field fits in a u32, and the attempts counter is either 0
(freshly enqueued) or strictly below `max_retries` (re-enqueued after a
retriable failure). -/
def WfJob (j : QueueJob T) : Prop :=
  j.max_retries < U32 ∧ (j.attempts = 0 ∨ j.attempts < j.max_retries)

/-- Claim C10: the backoff expression `backoff_ms * 2 ^ (attempts - 1)`
subtracts on an unsigned integer and underflows exactly when `attempts = 0`;
`attempts ≥ 1` makes it well defined, and the precondition holds on every
path through the worker loop, because the loop increments the attempts
counter (u32 arithmetic) before invoking the handler — so a step from any
state whose waiting entries are well formed never hits the underflow. -/
theorem backoff_subtraction_safe {T : Type} [DecidableEq T] (cfg : QueueConfig)
    (qn : String) (outcome : QueueJob T → HandlerOutcome) (st : Store T)
    (hwf : ∀ j : QueueJob T, Entry.job j ∈ st.waiting → WfJob j) :
    (workerStep cfg qn outcome st).isSome = true ∧
    (∀ j : QueueJob T, 1 ≤ j.attempts → (backoffExpr j).isSome = true) ∧
    (∀ j : QueueJob T, j.attempts = 0 → backoffExpr j = none) := by
  refine ⟨?_, ?_, ?_⟩
  · unfold workerStep
    split
    · rfl
    · rename_i e heq
      split
      · rfl
      · rename_i j0
        have hj0 : WfJob j0 := hwf j0 (mem_of_getLast?_eq heq)
        obtain ⟨hmr, hcase⟩ := hj0
        have hlt : j0.attempts + 1 < U32 := by
          rcases hcase with h0 | hless
          · rw [h0]
            exact one_lt_U32
          · omega
        have hone : 1 ≤ (j0.attempts + 1) % U32 := by
          rw [Nat.mod_eq_of_lt hlt]
          omega
        dsimp only
        split
        · rfl
        · have h2 := handle_failure_isSome cfg qn
            { j0 with attempts := (j0.attempts + 1) % U32 }
            { waiting := st.waiting.dropLast, processing := Entry.job j0 :: st.processing,
              succeeded := st.succeeded, failed := st.failed, records := st.records }
            hone
          split
          · rename_i hfe
            rw [hfe] at h2
            simp at h2
          · rfl
          · rfl
        · have h2 := handle_failure_isSome cfg qn
            { j0 with attempts := (j0.attempts + 1) % U32 }
            { waiting := st.waiting.dropLast, processing := Entry.job j0 :: st.processing,
              succeeded := st.succeeded, failed := st.failed, records := st.records }
            hone
          split
          · rename_i hfe
            rw [hfe] at h2
            simp at h2
          · rfl
          · rfl
  · intro j h
    cases ha : j.attempts with
    | zero => omega
    | succ n => simp [backoffExpr, checkedPred, ha]
  · intro j h
    simp [backoffExpr, checkedPred, h]

/-- Witness for claim C10 at a concrete input: a step from a well-formed
store does not crash (here: an empty waiting list, vacuously well formed). -/
theorem backoff_subtraction_safe_witness :
    (workerStep (QueueConfig.new "url" "test") "q" (fun _ => HandlerOutcome.failure)
      (⟨[], [], [], [], []⟩ : Store Nat)).isSome = true :=
  (backoff_subtraction_safe (QueueConfig.new "url" "test") "q"
    (fun _ => HandlerOutcome.failure) (⟨[], [], [], [], []⟩ : Store Nat)
    (fun _ hj => absurd hj (List.not_mem_nil _))).1

/-- Claim C5: the full enqueue contract of `add_to_queue`.  When the health
check reports unhealthy the call fails with the store-unavailable Redis error
and performs no store write; when serialization fails it fails with the
queue serialization error; when a store operation fails or the 5-second
deadline fires it fails with the adapter error respectively the Redis
timeout error; on success the serialized record is persisted under
`jobKey` (the queue name, the literal `:job:`, the id) with the 86400-second
(24-hour) expiry, the job is appended at the tail of the waiting list, and
the generated id is returned. -/
theorem add_to_queue_contract {T : Type} [DecidableEq T] (qn : String) (mr : Nat)
    (nid : String) (now : Int) (d : T) (b : StoreBehavior) (st : Store T) :
    (b.ping ≠ PingOutcome.ok →
      add_to_queue qn mr nid now d b st =
        (Except.error (AppError.redisError
          "Redis is not available. Job cannot be added to queue."), st)) ∧
    (b.ping = PingOutcome.ok → b.serialize_ok = false →
      add_to_queue qn mr nid now d b st =
        (Except.error (AppError.queueError "Failed to serialize job"), st)) ∧
    (∀ e, b.ping = PingOutcome.ok → b.serialize_ok = true → b.set_ex = OpResult.err e →
      add_to_queue qn mr nid now d b st = (Except.error e, st)) ∧
    (b.ping = PingOutcome.ok → b.serialize_ok = true → b.set_ex = OpResult.hang →
      add_to_queue qn mr nid now d b st =
        (Except.error (AppError.redisError "Timeout adding job to queue"), st)) ∧
    (∀ e, b.ping = PingOutcome.ok → b.serialize_ok = true → b.set_ex = OpResult.ok →
      b.rpush = OpResult.err e →
      (add_to_queue qn mr nid now d b st).1 = Except.error e) ∧
    (b.ping = PingOutcome.ok → b.serialize_ok = true → b.set_ex = OpResult.ok →
      b.rpush = OpResult.hang →
      (add_to_queue qn mr nid now d b st).1 =
        Except.error (AppError.redisError "Timeout adding job to queue")) ∧
    (b.ping = PingOutcome.ok → b.serialize_ok = true → b.set_ex = OpResult.ok →
      b.rpush = OpResult.ok →
      add_to_queue qn mr nid now d b st =
        (Except.ok nid,
         { st with
             records := setRecord st.records (jobKey qn nid)
               (QueueJob.new nid d mr 60000 now) 86400,
             waiting := st.waiting ++ [Entry.job (QueueJob.new nid d mr 60000 now)] })) := by
  refine ⟨?_, ?_, ?_, ?_, ?_, ?_, ?_⟩
  · intro h
    cases hp : b.ping with
    | ok => exact absurd hp h
    | err => simp [add_to_queue, health_check, hp]
    | timedOut => simp [add_to_queue, health_check, hp]
  · intro h1 h2
    simp [add_to_queue, health_check, h1, h2]
  · intro e h1 h2 h3
    simp [add_to_queue, health_check, h1, h2, h3]
  · intro h1 h2 h3
    simp [add_to_queue, health_check, h1, h2, h3]
  · intro e h1 h2 h3 h4
    simp [add_to_queue, health_check, h1, h2, h3, h4]
  · intro h1 h2 h3 h4
    simp [add_to_queue, health_check, h1, h2, h3, h4]
  · intro h1 h2 h3 h4
    simp [add_to_queue, health_check, h1, h2, h3, h4]

/-- Witness for claim C5 at a concrete input: a successful enqueue on an
empty store persists the record under the derived key with the 24-hour TTL,
appends the job to the waiting list and returns the id. -/
theorem add_to_queue_contract_witness :
    add_to_queue "q" 3 "A" 0 (0 : Nat) ⟨PingOutcome.ok, true, OpResult.ok, OpResult.ok⟩
      (⟨[], [], [], [], []⟩ : Store Nat) =
      (Except.ok "A",
       { (⟨[], [], [], [], []⟩ : Store Nat) with
           records := setRecord [] (jobKey "q" "A") (QueueJob.new "A" (0 : Nat) 3 60000 0) 86400,
           waiting := [] ++ [Entry.job (QueueJob.new "A" (0 : Nat) 3 60000 0)] }) :=
  (add_to_queue_contract "q" 3 "A" 0 (0 : Nat)
      ⟨PingOutcome.ok, true, OpResult.ok, OpResult.ok⟩
      (⟨[], [], [], [], []⟩ : Store Nat)).2.2.2.2.2.2 rfl rfl rfl rfl

theorem get_job_result_loop_ok {T : Type} (reads : Nat → Option (StoredResult T)) :
    ∀ (fuel k j : Nat) (r : StoredResult T), j < fuel →
      reads (k + j) = some r → isTerminal r.status = true →
      (∀ i, i < j → ∃ ri, reads (k + i) = some ri ∧ isTerminal ri.status = false) →
      get_job_result_loop reads k fuel = Except.ok r := by
  intro fuel
  induction fuel with
  | zero => intro k j r hj _ _ _; omega
  | succ f ih =>
    intro k j r hj hr ht hpre
    cases j with
    | zero =>
      rw [Nat.add_zero] at hr
      unfold get_job_result_loop
      rw [hr]
      simp [ht]
    | succ j1 =>
      obtain ⟨r0, hr0, hnt⟩ := hpre 0 (Nat.succ_pos j1)
      rw [Nat.add_zero] at hr0
      unfold get_job_result_loop
      rw [hr0]
      simp only [hnt, Bool.false_eq_true, if_false]
      refine ih (k + 1) j1 r (by omega) ?_ ht ?_
      · rw [show k + 1 + j1 = k + (j1 + 1) from by omega]
        exact hr
      · intro i hi
        obtain ⟨ri, h1, h2⟩ := hpre (i + 1) (by omega)
        exact ⟨ri, by rw [show k + 1 + i = k + (i + 1) from by omega]; exact h1, h2⟩

theorem get_job_result_loop_timeout {T : Type} (reads : Nat → Option (StoredResult T)) :
    ∀ (fuel k : Nat),
      (∀ i, i < fuel → ∃ ri, reads (k + i) = some ri ∧ isTerminal ri.status = false) →
      get_job_result_loop reads k fuel = Except.error PollError.timedOut := by
  intro fuel
  induction fuel with
  | zero => intro k _; rfl
  | succ f ih =>
    intro k hpre
    obtain ⟨r0, hr0, hnt⟩ := hpre 0 (Nat.succ_pos f)
    rw [Nat.add_zero] at hr0
    unfold get_job_result_loop
    rw [hr0]
    simp only [hnt, Bool.false_eq_true, if_false]
    refine ih (k + 1) ?_
    intro i hi
    obtain ⟨ri, h1, h2⟩ := hpre (i + 1) (by omega)
    exact ⟨ri, by rw [show k + 1 + i = k + (i + 1) from by omega]; exact h1, h2⟩

theorem get_job_result_loop_notFound {T : Type} (reads : Nat → Option (StoredResult T)) :
    ∀ (fuel k j : Nat), j < fuel → reads (k + j) = none →
      (∀ i, i < j → ∃ ri, reads (k + i) = some ri ∧ isTerminal ri.status = false) →
      get_job_result_loop reads k fuel = Except.error PollError.notFound := by
  intro fuel
  induction fuel with
  | zero => intro k j hj _ _; omega
  | succ f ih =>
    intro k j hj hr hpre
    cases j with
    | zero =>
      rw [Nat.add_zero] at hr
      unfold get_job_result_loop
      rw [hr]
    | succ j1 =>
      obtain ⟨r0, hr0, hnt⟩ := hpre 0 (Nat.succ_pos j1)
      rw [Nat.add_zero] at hr0
      unfold get_job_result_loop
      rw [hr0]
      simp only [hnt, Bool.false_eq_true, if_false]
      refine ih (k + 1) j1 (by omega) ?_ ?_
      · rw [show k + 1 + j1 = k + (j1 + 1) from by omega]
        exact hr
      · intro i hi
        obtain ⟨ri, h1, h2⟩ := hpre (i + 1) (by omega)
        exact ⟨ri, by rw [show k + 1 + i = k + (i + 1) from by omega]; exact h1, h2⟩

/-- Claim C6 (modelled from the spec; `get_job_result` has no implementation
in the source): with one poll every 500 ms, a `timeout_secs`-second deadline
allows `timeout_secs * 2` polls, indexed from 0, and `j` is the first poll
whose read is not a non-terminal record.  Then `get_job_result` returns the
terminal status together with its result/error when poll `j` reads a
terminal record within the deadline, fails with `Timeout` when every poll
within the deadline reads a non-terminal record, and fails with `NotFound`
when poll `j` finds the key missing (expired or never written) within the
deadline. -/
theorem get_job_result_spec {T : Type} (reads : Nat → Option (StoredResult T))
    (timeout_secs j : Nat) (r : StoredResult T)
    (hpre : ∀ i, i < j → ∃ ri, reads i = some ri ∧ isTerminal ri.status = false) :
    (j < timeout_secs * 2 → reads j = some r → isTerminal r.status = true →
      get_job_result reads timeout_secs = Except.ok r) ∧
    (j = timeout_secs * 2 →
      get_job_result reads timeout_secs = Except.error PollError.timedOut) ∧
    (j < timeout_secs * 2 → reads j = none →
      get_job_result reads timeout_secs = Except.error PollError.notFound) := by
  refine ⟨?_, ?_, ?_⟩
  · intro h1 h2 h3
    exact get_job_result_loop_ok reads (timeout_secs * 2) 0 j r h1
      (by rw [Nat.zero_add]; exact h2) h3
      (fun i hi => by rw [Nat.zero_add]; exact hpre i hi)
  · intro h1
    exact get_job_result_loop_timeout reads (timeout_secs * 2) 0
      (fun i hi => by rw [Nat.zero_add]; exact hpre i (by omega))
  · intro h1 h2
    exact get_job_result_loop_notFound reads (timeout_secs * 2) 0 j h1
      (by rw [Nat.zero_add]; exact h2)
      (fun i hi => by rw [Nat.zero_add]; exact hpre i hi)

/-- Witness for claim C6 at a concrete input: a record that is already
Completed at the first poll is returned with its result within a 1-second
deadline. -/
theorem get_job_result_spec_witness :
    get_job_result (fun _ => some (⟨JobStatus.completed, some 7, none⟩ : StoredResult Nat)) 1 =
      Except.ok (⟨JobStatus.completed, some 7, none⟩ : StoredResult Nat) :=
  (get_job_result_spec (fun _ => some (⟨JobStatus.completed, some 7, none⟩ : StoredResult Nat))
      1 0 ⟨JobStatus.completed, some 7, none⟩
      (fun i hi => absurd hi (Nat.not_lt_zero i))).1 (by decide) rfl rfl

end RustQueue
